import Mathlib

/-!
# Verification of the assistive-navigation-device main controller

Shallow embedding of `src/scr/main.py`: a button-triggered pipeline that
captures an image, sends it to a remote analysis service, and gives spoken
and haptic feedback.  The effectful Python code is modelled as pure
functions that return the list of observable events they perform, with the
outcomes of the three external services (camera capture, remote analysis,
speech synthesis) supplied by an environment oracle.
-/

namespace AssistDevice

/-- Observable events performed by the controller.  `setVib b` is
`GPIO.output(VibPin, b)`; `sleepFor d` is `sleep(d)` with `d` in tenths of
a second (every sleep in the source is a multiple of 0.1 s: the 0.2 s
acknowledgment pulse is `sleepFor 2`, the 0.5 s success pulse `sleepFor 5`,
the 1.0 s failure pulse `sleepFor 10`, the 0.1 s poll `sleepFor 1`);
`captureCall` is the `fswebcam` subprocess invocation in `capture_image`;
`analysisCall` is `client.responses.create` in `analyze_image`;
`speakCall t` is the `espeak` subprocess invocation in `speak` with the
already-sanitized text `t`; `logSpeechFailed` is the caught-exception log
line in `speak`; `dequeued t` is `task_queue.get()` returning task `t`;
`enqueueTask t` is `task_queue.put(t)`; `gpioCleanup` is `GPIO.cleanup()`
in `destroy`. -/
inductive Event where
  | captureCall : Event
  | analysisCall : Event
  | setVib : Bool → Event
  | sleepFor : Nat → Event
  | speakCall : String → Event
  | logSpeechFailed : Event
  | dequeued : String → Event
  | enqueueTask : String → Event
  | gpioCleanup : Event
  deriving DecidableEq

/-- Model of one content part of an analysis response, as probed by
`extract_text`: `type` models `getattr(part, "type", "")` (absent attribute
modelled as `none`), `text` models the direct attribute access `part.text`
(absent attribute raises `AttributeError`, modelled as `none`). -/
structure Part where
  type : Option String
  text : Option String
  deriving DecidableEq

/-- Model of one item of `resp.output`; `content` models
`getattr(item, "content", [])`. -/
structure Item where
  content : Option (List Part)
  deriving DecidableEq

/-- Model of the analysis response object passed to `extract_text`:
`output_text` models the optional direct text attribute (present iff
`hasattr(resp, "output_text")`), `output` models
`getattr(resp, "output", [])`, and `str_repr` models `str(resp)`. -/
structure Resp where
  output_text : Option String
  output : Option (List Item)
  str_repr : String
  deriving DecidableEq

/-- Embeds Python `s.strip()`: remove leading and trailing whitespace. -/
def pyStrip (s : String) : String :=
  ⟨((s.data.dropWhile Char.isWhitespace).reverse.dropWhile Char.isWhitespace).reverse⟩

/-- True when a part's `type` attribute (default `""`) is `"output_text"`
or `"text"` — the test `getattr(part, "type", "") in ("output_text", "text")`. -/
def isTextTyped (p : Part) : Bool :=
  p.type.getD "" = "output_text" || p.type.getD "" = "text"

/-- Embeds the inner `for part in getattr(item, "content", [])` loop of
`extract_text`: `.ok (some s)` is a `return s`, `.ok none` is falling off
the loop, `.error ()` is an uncaught `AttributeError` from `part.text`
when the `text` attribute is absent on a text-typed part. -/
def scanParts : List Part → Except Unit (Option String)
  | [] => Except.ok none
  | p :: rest =>
    if isTextTyped p then
      match p.text with
      | some s => Except.ok (some (pyStrip s))
      | none => Except.error ()
    else scanParts rest

/-- Embeds the outer `for item in getattr(resp, "output", [])` loop of
`extract_text`. -/
def scanItems : List Item → Except Unit (Option String)
  | [] => Except.ok none
  | it :: rest =>
    match scanParts (it.content.getD []) with
    | Except.ok none => scanItems rest
    | r => r

/-- Embeds `extract_text(resp)`: the direct `output_text` shape wins and is
stripped; otherwise the nested loops run inside the `try`; any raised
exception, and falling through both loops, yield the fallback `str(resp)`. -/
def extract_text (r : Resp) : String :=
  match r.output_text with
  | some s => pyStrip s
  | none =>
    match scanItems (r.output.getD []) with
    | Except.ok (some s) => s
    | Except.ok none => r.str_repr
    | Except.error _ => r.str_repr

/-- Embeds Python `s.replace(c, "")` for a one-character pattern `c`:
every occurrence of `c` is removed and all other characters are kept in
order. -/
def removeChar (s : String) (c : Char) : String :=
  ⟨s.data.filter (fun x => x ≠ c)⟩

/-- The double-quote character. -/
def dq : Char := Char.ofNat 34

/-- The single-quote character. -/
def sq : Char := Char.ofNat 39

/-- Embeds the sanitization in `speak`:
`text.replace(chr(34), "").replace(chr(39), "")`. -/
def safe_text (t : String) : String :=
  removeChar (removeChar t dq) sq

/-- Environment oracle for one processing cycle.  `captureOk` is whether
`capture_image` and the subsequent file read in `to_data_url` succeed
(`false` models a non-zero `fswebcam` exit or an I/O error);
`analysis` is the outcome of `client.responses.create` (`none` models a
raised exception, `some r` a returned response object); `speakOk` is
whether `subprocess.Popen` in `speak` succeeds. -/
structure Env where
  captureOk : Bool
  analysis : Option Resp
  speakOk : Bool
  deriving DecidableEq

/-- Embeds `vibrate(d)`: drive the motor high, hold for `d` tenths of a
second, drive it low. -/
def vibrate (d : Nat) : List Event :=
  [Event.setVib true, Event.sleepFor d, Event.setVib false]

/-- Embeds `speak(text)`: `subprocess.Popen` is invoked with the sanitized
text; an exception it raises is caught inside `speak` and logged. -/
def speak (ok : Bool) (text : String) : List Event :=
  Event.speakCall (safe_text text) :: (if ok then [] else [Event.logSpeechFailed])

/-- Embeds `analyze_image()` under the oracle `env`: the events it
performs, and `some description` on normal return or `none` when an
exception escapes it. -/
def analyze_image (env : Env) : List Event × Option String :=
  if env.captureOk then
    match env.analysis with
    | some r => ([Event.captureCall, Event.analysisCall], some (extract_text r))
    | none => ([Event.captureCall, Event.analysisCall], none)
  else
    ([Event.captureCall], none)

/-- Embeds the `try`/`except` body of `process_tasks` for one `"capture"`
task: on normal return of `analyze_image`, success vibrate then `speak`;
on exception, the long failure vibrate. -/
def runCycle (env : Env) : List Event :=
  match analyze_image env with
  | (evs, some d) => evs ++ vibrate 5 ++ speak env.speakOk d
  | (evs, none) => evs ++ vibrate 10

/-- Embeds one iteration of the `while True` loop of `process_tasks`:
poll the queue, pop and handle the head task if any, then `sleep(0.1)`.
Returns the queue left after the iteration and the events performed. -/
def loopStep (env : Env) (q : List String) : List String × List Event :=
  match q with
  | [] => ([], [Event.sleepFor 1])
  | t :: rest =>
    if t = "capture" then (rest, Event.dequeued t :: runCycle env ++ [Event.sleepFor 1])
    else (rest, [Event.dequeued t, Event.sleepFor 1])

/-- Iterates `loopStep`, one environment oracle per iteration. -/
def runLoop : List Env → List String → List String × List Event
  | [], q => (q, [])
  | e :: es, q =>
    let s1 := loopStep e q
    let s2 := runLoop es s1.1
    (s2.1, s1.2 ++ s2.2)

/-- Embeds `button_pressed(channel)`: a 0.2-second acknowledgment vibrate,
then `task_queue.put("capture")`. Returns the queue after the call and the
events performed. -/
def button_pressed (q : List String) : List String × List Event :=
  (q ++ ["capture"], vibrate 2 ++ [Event.enqueueTask "capture"])

/-- Embeds `destroy()`: force the motor low, then release the GPIO pins. -/
def destroy : List Event :=
  [Event.setVib false, Event.gpioCleanup]

/-- Embeds the `__main__` block once `KeyboardInterrupt` arrives: the loop
runs for `envs.length` iterations from queue `q`, the interrupt is caught,
and `destroy()` runs.  The function is total: the interrupt never
propagates out. -/
def mainRun (envs : List Env) (q : List String) : List Event :=
  (runLoop envs q).2 ++ destroy

/-- The motor level after performing a list of events, starting from
level `l`. -/
def actuatorAfter : Bool → List Event → Bool
  | l, [] => l
  | _, Event.setVib b :: rest => actuatorAfter b rest
  | l, _ :: rest => actuatorAfter l rest

/-- Durations (in tenths of a second) of the complete haptic pulses
(high, hold, low) appearing in an event list, in order. -/
def pulses : List Event → List Nat
  | Event.setVib true :: Event.sleepFor d :: Event.setVib false :: rest => d :: pulses rest
  | _ :: rest => pulses rest
  | [] => []

/-- The texts passed to the speech subprocess in an event list, in order. -/
def speakTexts (evs : List Event) : List String :=
  evs.filterMap (fun e => match e with | Event.speakCall t => some t | _ => none)

/-- True for events that are calls to one of the three external services. -/
def isServiceCall : Event → Bool
  | Event.captureCall => true
  | Event.analysisCall => true
  | Event.speakCall _ => true
  | _ => false

/-- The tasks removed from the queue in an event list, in order. -/
def dequeuedTasks (evs : List Event) : List String :=
  evs.filterMap (fun e => match e with | Event.dequeued t => some t | _ => none)

/-- All content parts of a response, in response order: the flattening of
`getattr(item, "content", [])` over `getattr(resp, "output", [])`. -/
def allParts (r : Resp) : List Part :=
  (r.output.getD []).foldr (fun it acc => it.content.getD [] ++ acc) []

/-- The tasks put on the queue in an event list, in order. -/
def enqueuedTasks (evs : List Event) : List String :=
  evs.filterMap (fun e => match e with | Event.enqueueTask t => some t | _ => none)

/-- A processing cycle never touches the queue: it dequeues nothing
(beyond the initial `get` modelled separately in `loopStep`). -/
theorem dequeuedTasks_runCycle (env : Env) : dequeuedTasks (runCycle env) = [] := by
  obtain ⟨c, a, s⟩ := env
  cases c <;> cases s <;> rcases a with _ | r <;> rfl

/-- The motor level after an appended event list is computed sequentially. -/
theorem actuatorAfter_append (l : Bool) (l1 l2 : List Event) :
    actuatorAfter l (l1 ++ l2) = actuatorAfter (actuatorAfter l l1) l2 := by
  induction l1 generalizing l with
  | nil => rfl
  | cons e rest ih => cases e <;> simp [actuatorAfter, ih]

/-- An idle consumer loop only polls: with an empty queue, `envs.length`
iterations leave the queue empty and perform only the poll sleeps. -/
theorem runLoop_nil_queue (envs : List Env) :
    runLoop envs [] = ([], List.replicate envs.length (Event.sleepFor 1)) := by
  induction envs with
  | nil => rfl
  | cons e es ih => simp [runLoop, loopStep, ih, List.replicate_succ]

/-- Unfolds the early-exit scan of one item's parts to a search over the
part list. -/
theorem scanParts_eq (ps : List Part) :
    scanParts ps =
      match ps.find? isTextTyped with
      | some p =>
        (match p.text with
         | some s => Except.ok (some (pyStrip s))
         | none => Except.error ())
      | none => Except.ok none := by
  induction ps with
  | nil => rfl
  | cons p rest ih =>
    by_cases hp : isTextTyped p
    · simp only [scanParts, if_pos hp, List.find?_cons_of_pos _ hp]
    · simp only [scanParts, if_neg hp, List.find?_cons_of_neg _ hp, ih]

/-- Unfolds the early-exit scan of the response items to a search over the
flattened part list. -/
theorem scanItems_eq (its : List Item) :
    scanItems its =
      match (its.foldr (fun it acc => it.content.getD [] ++ acc) []).find? isTextTyped with
      | some p =>
        (match p.text with
         | some s => Except.ok (some (pyStrip s))
         | none => Except.error ())
      | none => Except.ok none := by
  induction its with
  | nil => rfl
  | cons it rest ih =>
    rcases hf : (it.content.getD []).find? isTextTyped with _ | p
    · have h1 : scanParts (it.content.getD []) = Except.ok none := by
        rw [scanParts_eq, hf]
      simp only [scanItems, h1, ih, List.foldr_cons, List.find?_append, hf, Option.or]
    · have h1 : scanParts (it.content.getD []) =
          (match p.text with
           | some s => Except.ok (some (pyStrip s))
           | none => Except.error ()) := by
        rw [scanParts_eq, hf]
      simp only [scanItems, h1, List.foldr_cons, List.find?_append, hf, Option.or]
      rcases hp : p.text with _ | s <;> simp only [hp]

/-- The sanitized speech text is the input with exactly the two quote
characters filtered out. -/
theorem safe_text_data (t : String) :
    (safe_text t).data = (t.data.filter (fun x => x ≠ dq)).filter (fun x => x ≠ sq) := rfl

/-- Sanitizing for speech only deletes characters, preserving order. -/
theorem safe_text_sublist (t : String) :
    (safe_text t).data.Sublist t.data := by
  rw [safe_text_data]
  exact (List.filter_sublist _).trans (List.filter_sublist _)

/-- Sanitizing for speech keeps every occurrence of every non-quote
character. -/
theorem safe_text_count_eq (t : String) (c : Char) (h1 : c ≠ dq) (h2 : c ≠ sq) :
    (safe_text t).data.count c = t.data.count c := by
  rw [safe_text_data, List.count_filter (by simpa using h2),
    List.count_filter (by simpa using h1)]

/-- Sanitizing for speech removes every double quote. -/
theorem safe_text_count_dq (t : String) : (safe_text t).data.count dq = 0 := by
  rw [safe_text_data]
  refine List.count_eq_zero.mpr (fun hmem => ?_)
  have := (List.mem_filter.mp ((List.filter_sublist _).mem hmem)).2
  simp at this

/-- Sanitizing for speech removes every single quote. -/
theorem safe_text_count_sq (t : String) : (safe_text t).data.count sq = 0 := by
  rw [safe_text_data]
  refine List.count_eq_zero.mpr (fun hmem => ?_)
  have := (List.mem_filter.mp hmem).2
  simp at this

/-- Dequeue records distribute over appended event lists. -/
theorem dequeuedTasks_append (l1 l2 : List Event) :
    dequeuedTasks (l1 ++ l2) = dequeuedTasks l1 ++ dequeuedTasks l2 :=
  List.filterMap_append l1 l2 _

/-- C1: in every processing cycle whose capture step raises an error (a
non-zero exit of the capture process or an I/O error), the long 1.0 s
failure haptic pulse fires (`sleepFor 10` in tenths of a second) and the
analysis service is never called in that cycle. -/
theorem capture_failure_fires_long_pulse_and_skips_analysis
    (env : Env) (rest : List String) (h : env.captureOk = false) :
    pulses (loopStep env ("capture" :: rest)).2 = [10] ∧
    Event.analysisCall ∉ (loopStep env ("capture" :: rest)).2 := by
  have ht : (loopStep env ("capture" :: rest)).2 =
      [Event.dequeued "capture", Event.captureCall, Event.setVib true,
       Event.sleepFor 10, Event.setVib false, Event.sleepFor 1] := by
    simp [loopStep, runCycle, analyze_image, vibrate, h]
  rw [ht]
  exact ⟨rfl, by decide⟩

/-- Witness for C1 at a concrete failing environment. -/
theorem capture_failure_witness :
    pulses (loopStep (Env.mk false none true) ["capture"]).2 = [10] ∧
    Event.analysisCall ∉ (loopStep (Env.mk false none true) ["capture"]).2 :=
  capture_failure_fires_long_pulse_and_skips_analysis (Env.mk false none true) [] rfl

/-- C2: in every processing cycle where capture succeeds but the analysis
call raises an error, the long failure haptic pulse fires, the speech
service is never called, and the task is discarded: the queue afterwards
is exactly the remaining tail, with no retry and no requeue. -/
theorem analysis_failure_fires_long_pulse_no_speech_no_requeue
    (env : Env) (rest : List String)
    (hc : env.captureOk = true) (ha : env.analysis = none) :
    pulses (loopStep env ("capture" :: rest)).2 = [10] ∧
    speakTexts (loopStep env ("capture" :: rest)).2 = [] ∧
    (loopStep env ("capture" :: rest)).1 = rest := by
  have ht : loopStep env ("capture" :: rest) =
      (rest, [Event.dequeued "capture", Event.captureCall, Event.analysisCall,
       Event.setVib true, Event.sleepFor 10, Event.setVib false, Event.sleepFor 1]) := by
    simp [loopStep, runCycle, analyze_image, vibrate, hc, ha]
  rw [ht]
  exact ⟨rfl, rfl, rfl⟩

/-- Witness for C2 at a concrete environment where only the analysis call
fails. -/
theorem analysis_failure_witness :
    pulses (loopStep (Env.mk true none true) ["capture", "capture"]).2 = [10] ∧
    speakTexts (loopStep (Env.mk true none true) ["capture", "capture"]).2 = [] ∧
    (loopStep (Env.mk true none true) ["capture", "capture"]).1 = ["capture"] :=
  analysis_failure_fires_long_pulse_no_speech_no_requeue
    (Env.mk true none true) ["capture"] rfl rfl

/-- C3 counterexample: a cycle whose analysis call returns a response with
an empty text field is not treated as failed: the failure pulse does not
fire and a speech call is made, refuting the claim at this input. -/
theorem empty_result_counterexample :
    extract_text (Resp.mk (some "") none "stub") = "" ∧
    ¬ (pulses (loopStep (Env.mk true (some (Resp.mk (some "") none "stub")) true)
          ["capture"]).2 = [10] ∧
       speakTexts (loopStep (Env.mk true (some (Resp.mk (some "") none "stub")) true)
          ["capture"]).2 = []) := by
  decide

/-- C3 amended: in every processing cycle where capture succeeds and the
analysis call returns a response whose extracted text is empty, the cycle
takes the success path: the 0.5 s success haptic fires and the speech
service is called with the empty text; the task is still consumed. -/
theorem empty_result_takes_success_path
    (env : Env) (rest : List String) (r : Resp)
    (hc : env.captureOk = true) (ha : env.analysis = some r)
    (he : extract_text r = "") :
    pulses (loopStep env ("capture" :: rest)).2 = [5] ∧
    speakTexts (loopStep env ("capture" :: rest)).2 = [""] ∧
    (loopStep env ("capture" :: rest)).1 = rest := by
  obtain ⟨c, a, s⟩ := env
  obtain rfl : c = true := hc
  obtain rfl : a = some r := ha
  cases s
  · refine ⟨rfl, ?_, rfl⟩
    have hs : speakTexts (loopStep (Env.mk true (some r) false) ("capture" :: rest)).2 =
        [safe_text (extract_text r)] := rfl
    rw [hs, he]
    rfl
  · refine ⟨rfl, ?_, rfl⟩
    have hs : speakTexts (loopStep (Env.mk true (some r) true) ("capture" :: rest)).2 =
        [safe_text (extract_text r)] := rfl
    rw [hs, he]
    rfl

/-- Witness for the amended C3 at a concrete empty-text response. -/
theorem empty_result_witness :
    pulses (loopStep (Env.mk true (some (Resp.mk (some "") none "stub")) true)
      ["capture"]).2 = [5] ∧
    speakTexts (loopStep (Env.mk true (some (Resp.mk (some "") none "stub")) true)
      ["capture"]).2 = [""] ∧
    (loopStep (Env.mk true (some (Resp.mk (some "") none "stub")) true) ["capture"]).1 = [] :=
  empty_result_takes_success_path
    (Env.mk true (some (Resp.mk (some "") none "stub")) true) []
    (Resp.mk (some "") none "stub") rfl rfl (by decide)

/-- C4: in every processing cycle where capture and analysis both succeed,
the 0.5 s success haptic pulse is triggered before the speech call is
issued (read off the full event trace), and the text passed to the speech
call is the returned description with exactly the quote characters
removed: a character-subsequence of the description that keeps every
occurrence of every non-quote character and contains no quotes. -/
theorem success_pulse_precedes_quote_stripped_speech
    (env : Env) (rest : List String) (r : Resp)
    (hc : env.captureOk = true) (ha : env.analysis = some r) :
    (loopStep env ("capture" :: rest)).2 =
      [Event.dequeued "capture", Event.captureCall, Event.analysisCall,
       Event.setVib true, Event.sleepFor 5, Event.setVib false,
       Event.speakCall (safe_text (extract_text r))] ++
      (if env.speakOk then [] else [Event.logSpeechFailed]) ++ [Event.sleepFor 1] ∧
    pulses (loopStep env ("capture" :: rest)).2 = [5] ∧
    speakTexts (loopStep env ("capture" :: rest)).2 = [safe_text (extract_text r)] ∧
    (safe_text (extract_text r)).data.Sublist (extract_text r).data ∧
    (∀ c, c ≠ dq → c ≠ sq →
      (safe_text (extract_text r)).data.count c = (extract_text r).data.count c) ∧
    (safe_text (extract_text r)).data.count dq = 0 ∧
    (safe_text (extract_text r)).data.count sq = 0 := by
  obtain ⟨c, a, s⟩ := env
  obtain rfl : c = true := hc
  obtain rfl : a = some r := ha
  cases s
  · exact ⟨rfl, rfl, rfl, safe_text_sublist _,
      fun c h1 h2 => safe_text_count_eq _ c h1 h2,
      safe_text_count_dq _, safe_text_count_sq _⟩
  · exact ⟨rfl, rfl, rfl, safe_text_sublist _,
      fun c h1 h2 => safe_text_count_eq _ c h1 h2,
      safe_text_count_dq _, safe_text_count_sq _⟩

/-- Witness for C4 at a concrete successful cycle. -/
theorem success_cycle_witness :
    (loopStep (Env.mk true (some (Resp.mk (some "A red chair.") none "resp")) true)
        ["capture"]).2 =
      [Event.dequeued "capture", Event.captureCall, Event.analysisCall,
       Event.setVib true, Event.sleepFor 5, Event.setVib false,
       Event.speakCall (safe_text (extract_text (Resp.mk (some "A red chair.") none "resp")))] ++
      [] ++ [Event.sleepFor 1] ∧
    pulses (loopStep (Env.mk true (some (Resp.mk (some "A red chair.") none "resp")) true)
        ["capture"]).2 = [5] ∧
    speakTexts (loopStep (Env.mk true (some (Resp.mk (some "A red chair.") none "resp")) true)
        ["capture"]).2 =
      [safe_text (extract_text (Resp.mk (some "A red chair.") none "resp"))] ∧
    (safe_text (extract_text (Resp.mk (some "A red chair.") none "resp"))).data.Sublist
      (extract_text (Resp.mk (some "A red chair.") none "resp")).data ∧
    (∀ c, c ≠ dq → c ≠ sq →
      (safe_text (extract_text (Resp.mk (some "A red chair.") none "resp"))).data.count c =
        (extract_text (Resp.mk (some "A red chair.") none "resp")).data.count c) ∧
    (safe_text (extract_text (Resp.mk (some "A red chair.") none "resp"))).data.count dq = 0 ∧
    (safe_text (extract_text (Resp.mk (some "A red chair.") none "resp"))).data.count sq = 0 :=
  success_pulse_precedes_quote_stripped_speech
    (Env.mk true (some (Resp.mk (some "A red chair.") none "resp")) true) []
    (Resp.mk (some "A red chair.") none "resp") rfl rfl

/-- C5: for every analysis response object, `extract_text` returns the
stripped direct text field when that shape is present; otherwise the
(stripped) text of the first text-typed part of the nested content-parts
shape; otherwise — no text-typed part exists, or the first one has no
text attribute (the raised `AttributeError` is caught) — the stringified
representation of the whole response.  The function is total, so no input
makes it raise. -/
theorem extract_text_shape_characterization (r : Resp) :
    extract_text r =
      match r.output_text with
      | some s => pyStrip s
      | none =>
        match (allParts r).find? isTextTyped with
        | some p =>
          (match p.text with
           | some s => pyStrip s
           | none => r.str_repr)
        | none => r.str_repr := by
  rcases h : r.output_text with _ | s
  · have h0 : extract_text r =
        (match scanItems (r.output.getD []) with
         | Except.ok (some s) => s
         | Except.ok none => r.str_repr
         | Except.error _ => r.str_repr) := by
      rw [extract_text, h]
    rw [h0, scanItems_eq]
    show _ = match (allParts r).find? isTextTyped with
      | some p =>
        (match p.text with
         | some s => pyStrip s
         | none => r.str_repr)
      | none => r.str_repr
    rw [allParts]
    rcases hf : ((r.output.getD []).foldr (fun it acc => it.content.getD [] ++ acc) []).find?
        isTextTyped with _ | p
    · rw [hf]
    · rw [hf]
      show (match (match p.text with
            | some s => Except.ok (some (pyStrip s))
            | none => Except.error ()) with
        | Except.ok (some s) => s
        | Except.ok none => r.str_repr
        | Except.error _ => r.str_repr) =
        (match p.text with
         | some s => pyStrip s
         | none => r.str_repr)
      rcases hp : p.text with _ | s <;> rfl
  · rw [extract_text, h]

/-- C6: the processor consumes the queue strictly front-to-back.  Over any
number of iterations, the sequence of dequeued tasks is exactly the
corresponding front segment of the queue, in order — so a task enqueued
earlier is dequeued and processed earlier — and the queue left behind is
exactly the remaining back segment, so every dequeued task is consumed
exactly once and never requeued, whether its cycle succeeds or fails. -/
theorem queue_fifo_consumed_exactly_once (envs : List Env) (q : List String) :
    dequeuedTasks (runLoop envs q).2 = q.take envs.length ∧
    (runLoop envs q).1 = q.drop envs.length := by
  induction envs generalizing q with
  | nil => exact ⟨rfl, rfl⟩
  | cons e es ih =>
    cases q with
    | nil =>
      obtain ⟨ih1, ih2⟩ := ih []
      refine ⟨?_, ?_⟩
      · show dequeuedTasks ([Event.sleepFor 1] ++ (runLoop es []).2) =
          List.take (es.length + 1) []
        rw [dequeuedTasks_append, ih1]
        have hd : dequeuedTasks [Event.sleepFor 1] = [] := rfl
        rw [hd]
        simp
      · show (runLoop es []).1 = List.drop (es.length + 1) []
        rw [ih2]
        simp
    | cons t rest =>
      obtain ⟨ih1, ih2⟩ := ih rest
      by_cases h : t = "capture"
      · subst h
        have hstep : loopStep e ("capture" :: rest) =
            (rest, Event.dequeued "capture" :: runCycle e ++ [Event.sleepFor 1]) := by
          simp [loopStep]
        refine ⟨?_, ?_⟩
        · have h2 : (runLoop (e :: es) ("capture" :: rest)).2 =
              (Event.dequeued "capture" :: runCycle e ++ [Event.sleepFor 1]) ++
                (runLoop es rest).2 := by
            show (loopStep e ("capture" :: rest)).2 ++
              (runLoop es (loopStep e ("capture" :: rest)).1).2 = _
            rw [hstep]
          rw [h2]
          have h3 : dequeuedTasks
              ((Event.dequeued "capture" :: runCycle e ++ [Event.sleepFor 1]) ++
                (runLoop es rest).2) =
              "capture" :: (dequeuedTasks (runCycle e) ++
                (dequeuedTasks [Event.sleepFor 1] ++ dequeuedTasks (runLoop es rest).2)) := by
            simp [dequeuedTasks, List.filterMap_append]
          rw [h3, dequeuedTasks_runCycle, ih1]
          simp [dequeuedTasks]
        · show (runLoop es (loopStep e ("capture" :: rest)).1).1 =
            List.drop (es.length + 1) ("capture" :: rest)
          rw [hstep]
          exact ih2
      · have hstep : loopStep e (t :: rest) =
            (rest, [Event.dequeued t, Event.sleepFor 1]) := by
          simp [loopStep, h]
        refine ⟨?_, ?_⟩
        · have h2 : (runLoop (e :: es) (t :: rest)).2 =
              [Event.dequeued t, Event.sleepFor 1] ++ (runLoop es rest).2 := by
            show (loopStep e (t :: rest)).2 ++
              (runLoop es (loopStep e (t :: rest)).1).2 = _
            rw [hstep]
          rw [h2, dequeuedTasks_append, ih1]
          simp [dequeuedTasks]
        · show (runLoop es (loopStep e (t :: rest)).1).1 =
            List.drop (es.length + 1) (t :: rest)
          rw [hstep]
          exact ih2

/-- C7: every invocation of the button-press handler performs exactly one
0.2 s acknowledgment pulse, then enqueues exactly one task of kind
`"capture"`, and makes no call to the capture, analysis, or speech
services. -/
theorem button_press_single_ack_single_enqueue (q : List String) :
    button_pressed q =
      (q ++ ["capture"],
       [Event.setVib true, Event.sleepFor 2, Event.setVib false,
        Event.enqueueTask "capture"]) ∧
    pulses (button_pressed q).2 = [2] ∧
    enqueuedTasks (button_pressed q).2 = ["capture"] ∧
    (button_pressed q).2.filter isServiceCall = [] :=
  ⟨rfl, rfl, rfl, rfl⟩

/-- C8: an exception in any of the three service calls (capture failing,
analysis raising, or the speech subprocess raising) never kills the loop
and never leaves the motor high: the iteration still hands back the tail
of the queue for the next poll, the motor is low after the iteration's
events from any starting level, and the iteration ends with the poll
sleep. -/
theorem service_exception_keeps_loop_alive
    (env : Env) (rest : List String) (l : Bool)
    (h : env.captureOk = false ∨ env.analysis = none ∨ env.speakOk = false) :
    (loopStep env ("capture" :: rest)).1 = rest ∧
    actuatorAfter l (loopStep env ("capture" :: rest)).2 = false ∧
    (loopStep env ("capture" :: rest)).2.getLast? = some (Event.sleepFor 1) := by
  obtain ⟨c, a, s⟩ := env
  cases c <;> cases s <;> rcases a with _ | r <;> exact ⟨rfl, rfl, rfl⟩

/-- Witness for C8 at a concrete environment where the capture call
raises. -/
theorem service_exception_witness :
    (loopStep (Env.mk false none true) ["capture"]).1 = [] ∧
    actuatorAfter true (loopStep (Env.mk false none true) ["capture"]).2 = false ∧
    (loopStep (Env.mk false none true) ["capture"]).2.getLast? =
      some (Event.sleepFor 1) :=
  service_exception_keeps_loop_alive (Env.mk false none true) [] true (Or.inl rfl)

/-- C9: when the interrupt arrives while the consumer loop is idle (empty
queue, any number of polls), the whole run performs only poll sleeps
followed by the shutdown sequence: the motor ends low from any starting
level, and the GPIO pins are released; the run is a total function, so
the interrupt never propagates out of the process model. -/
theorem interrupt_while_idle_clean_shutdown (envs : List Env) (l : Bool) :
    mainRun envs [] =
      List.replicate envs.length (Event.sleepFor 1) ++
        [Event.setVib false, Event.gpioCleanup] ∧
    actuatorAfter l (mainRun envs []) = false ∧
    Event.gpioCleanup ∈ mainRun envs [] := by
  have h1 : mainRun envs [] =
      List.replicate envs.length (Event.sleepFor 1) ++
        [Event.setVib false, Event.gpioCleanup] := by
    show (runLoop envs []).2 ++ destroy = _
    rw [runLoop_nil_queue]
    rfl
  refine ⟨h1, ?_, ?_⟩
  · rw [h1, actuatorAfter_append]
    rfl
  · rw [h1]
    simp

/-- C10: every dequeued task that is not the `"capture"` kind is silently
discarded: the queue moves on to the tail, no haptic pulse fires, no
service call is made, and the iteration ends with the poll sleep. -/
theorem non_capture_task_silently_discarded
    (env : Env) (t : String) (rest : List String) (h : t ≠ "capture") :
    loopStep env (t :: rest) = (rest, [Event.dequeued t, Event.sleepFor 1]) ∧
    pulses (loopStep env (t :: rest)).2 = [] ∧
    (loopStep env (t :: rest)).2.filter isServiceCall = [] := by
  have ht : loopStep env (t :: rest) = (rest, [Event.dequeued t, Event.sleepFor 1]) := by
    simp [loopStep, h]
  rw [ht]
  exact ⟨rfl, rfl, rfl⟩

/-- Witness for C10 at a concrete non-capture task. -/
theorem non_capture_task_witness :
    loopStep (Env.mk true none true) ["noop"] = ([], [Event.dequeued "noop", Event.sleepFor 1]) ∧
    pulses (loopStep (Env.mk true none true) ["noop"]).2 = [] ∧
    (loopStep (Env.mk true none true) ["noop"]).2.filter isServiceCall = [] :=
  non_capture_task_silently_discarded (Env.mk true none true) "noop" [] (by decide)

end AssistDevice
